import Mathlib

/-!
# Glossary widget: query engine, session state, favorites store

A shallow embedding of `src/script/main.js` (the query / caching / state core of the
glossary page) and the properties of it that the specification states.

Conventions of the embedding.

* A JavaScript string is the list of its characters (`JSString`), read as code points.
* The builtins whose behaviour is fixed by the platform and not by `main.js`
  (`String.prototype.toLowerCase`, `localeCompare(_, 'ru')`, `JSON.stringify`, `JSON.parse`)
  are the fields of a record `Builtins`; every general theorem holds for all of them.
  `refBuiltins` is one concrete instance, used to evaluate the examples.
* A non-negative finite number (an IEEE 754 double) `d` is represented by the natural
  number `d * 2^1074`: every such double is a whole multiple of `2^-1074`, the smallest
  positive double.  `roundDouble` is rounding to the nearest double, ties to even.
* A promise is represented by the outcome it settles with (`Except JSError _`).
* The page globals (`dataPromise`, `state`, `localStorage`) and what the page shows
  (the list given to `renderResults`, the spotlight, the reported errors) are the fields of
  `World`; two counters record how often `fetch` and `apiGet` have been called.
-/

namespace Glossary

/-! ## Strings -/

/-- A JavaScript string. -/
abbrev JSString := List Char

/-- The characters of a string literal. -/
def js (s : String) : JSString := s.data

/-- The white space and line terminator characters that `String.prototype.trim` removes. -/
def isWhiteSpace (c : Char) : Bool :=
  c.toNat == 0x09 || c.toNat == 0x0A || c.toNat == 0x0B || c.toNat == 0x0C ||
  c.toNat == 0x0D || c.toNat == 0x20 || c.toNat == 0xA0 || c.toNat == 0x1680 ||
  (0x2000 ≤ c.toNat && c.toNat ≤ 0x200A) || c.toNat == 0x2028 || c.toNat == 0x2029 ||
  c.toNat == 0x202F || c.toNat == 0x205F || c.toNat == 0x3000 || c.toNat == 0xFEFF

/-- The method `s.trim()`: white space removed from both ends. -/
def trim (s : JSString) : JSString :=
  ((s.dropWhile isWhiteSpace).reverse.dropWhile isWhiteSpace).reverse

/-- The method `s.includes(q)`: `q` occurs in `s` as a contiguous run of characters. -/
def includes : JSString → JSString → Bool
  | [], q => q.isEmpty
  | c :: cs, q => q.isPrefixOf (c :: cs) || includes cs q

/-- The value of `v || ''` for an optional string field. -/
def orEmpty (v : Option JSString) : JSString := v.getD []

/-! ## Numbers -/

/-- The integer part of the binary logarithm of `k`, by at most `fuel` halvings. -/
def floorLog2Aux : Nat → Nat → Nat
  | 0, _ => 0
  | fuel + 1, k => if k < 2 then 0 else floorLog2Aux fuel (k / 2) + 1

/-- The integer part of the binary logarithm of `k` (and `0` for `k = 0`). -/
def floorLog2 (k : Nat) : Nat := floorLog2Aux k k

/-- The double nearest to the non-negative real `k * 2^-1074`, in the same units: the
exact value when it has at most 53 significant bits, otherwise the value with the bits
below the 53rd rounded away, to nearest, a tie going to the even neighbour.  (Overflow
to `Infinity`, above `2^1024`, is not represented.) -/
def roundDouble (k : Nat) : Nat :=
  let s := floorLog2 k - 52
  let q := k / 2 ^ s
  let r := k % 2 ^ s
  if 2 * r < 2 ^ s then q * 2 ^ s
  else if 2 ^ s < 2 * r then (q + 1) * 2 ^ s
  else if q % 2 = 0 then q * 2 ^ s
  else (q + 1) * 2 ^ s

/-- The real `k * 2^-1074` is a double. -/
def isDouble (k : Nat) : Prop := roundDouble k = k

instance (k : Nat) : Decidable (isDouble k) := by unfold isDouble; infer_instance

/-- The function `Math.floor` on a non-negative double, as an integer. -/
def mathFloor (k : Nat) : Nat := k / 2 ^ 1074

/-- The index `Math.floor(Math.random() * rows.length)` for the draw `rnd` and the length
`n`: the product is the double nearest to the exact product. -/
def randomIndex (rnd n : Nat) : Nat := mathFloor (roundDouble (rnd * n))

/-! ## Errors, builtins -/

/-- The errors the page can meet. -/
inductive JSError where
  /-- The promise of `fetch` rejects. -/
  | fetchRejected
  /-- The line `throw new Error(...)` of `loadData`: the response is not `ok`. -/
  | badStatus (status : Nat)
  /-- The promise of `res.json()` rejects. -/
  | malformedDocument
  /-- A `SyntaxError` of `JSON.parse`. -/
  | parseError
  /-- A `TypeError`: the argument of `new Set(_)` is not iterable. -/
  | typeError
  deriving DecidableEq, Repr

/-- What `JSON.parse` returns, as far as `new Set(_)` looks at it. -/
inductive Parsed (Id : Type) where
  /-- The value `null`: `new Set(null)` is the empty set. -/
  | null
  /-- An array (or a string, which iterates over its characters), with the members it yields. -/
  | iterable (elems : List Id)
  /-- A number, a boolean or an object: `new Set(_)` throws. -/
  | notIterable
  deriving DecidableEq, Repr

/-- The platform functions used by `main.js`. -/
structure Builtins (Id : Type) where
  /-- The method `s.toLowerCase()`. -/
  toLowerCase : JSString → JSString
  /-- The call `a.localeCompare(b, 'ru')`. -/
  localeCompare : JSString → JSString → Int
  /-- The call `JSON.stringify(ids)` on an array of identifiers. -/
  stringify : List Id → JSString
  /-- The call `JSON.parse(text)`. -/
  parse : JSString → Except JSError (Parsed Id)

/-! ## Sets, maps, arrays -/

/-- The method `set.add(x)` on a `Set` kept as the list of its members in insertion order. -/
def setAdd {α : Type} [DecidableEq α] (s : List α) (x : α) : List α :=
  if x ∈ s then s else s ++ [x]

/-- The method `set.delete(x)`. -/
def setDelete {α : Type} [DecidableEq α] (s : List α) (x : α) : List α :=
  s.filter (fun y => decide (y ≠ x))

/-- The constructor `new Set(xs)`: the members of `xs` are added from left to right. -/
def setFrom {α : Type} [DecidableEq α] (xs : List α) : List α :=
  xs.foldl setAdd []

/-- The method `map.get(k)`. -/
def mapGet {κ β : Type} [DecidableEq κ] (m : List (κ × β)) (k : κ) : Option β :=
  match m with
  | [] => none
  | (k', v) :: rest => if k' = k then some v else mapGet rest k

/-- The method `map.set(k, v)`. -/
def mapSet {κ β : Type} [DecidableEq κ] (m : List (κ × β)) (k : κ) (v : β) : List (κ × β) :=
  match m with
  | [] => [(k, v)]
  | (k', v') :: rest => if k' = k then (k, v) :: rest else (k', v') :: mapSet rest k v

/-- The method `xs.sort(cmp)`: the stable sort that places `a` before `b` when
`cmp(a, b) <= 0`.  For a consistent comparator this is the order the language prescribes. -/
def jsSort {α : Type} (cmp : α → α → Int) (xs : List α) : List α :=
  xs.insertionSort (fun a b => cmp a b ≤ 0)

/-- The call `xs.filter(Boolean)` on optional strings: `undefined` and `''` are dropped. -/
def filterBoolean : List (Option JSString) → List JSString
  | [] => []
  | some (c :: cs) :: rest => (c :: cs) :: filterBoolean rest
  | _ :: rest => filterBoolean rest

/-! ## Data model -/

/-- A glossary entry.  A field that is absent from the document is `none`. -/
structure Term (Id : Type) where
  id : Id
  name : Option JSString
  abbr : Option JSString
  domain : Option JSString
  definition : Option JSString
  deriving DecidableEq, Repr

/-- The document `data/glossary.json`; `items` is `none` when the field is not an array. -/
structure Document (Id : Type) where
  items : Option (List (Term Id))
  deriving DecidableEq, Repr

/-- The argument of `apiGet`; an absent field is `none` or `false`. -/
structure Params where
  q : Option JSString
  domain : Option JSString
  domains : Bool
  random : Bool
  deriving DecidableEq, Repr

/-- The object `apiGet` resolves to. -/
inductive ApiResult (Id : Type) where
  /-- The object `{ domains }`. -/
  | domains (ds : List JSString)
  /-- The object `{ item }`; `none` is `null` or `undefined`. -/
  | item (t : Option (Term Id))
  /-- The object `{ items }`. -/
  | items (rows : List (Term Id))
  deriving DecidableEq, Repr

/-- What `fetch(DATA_URL)` does when it is called. -/
inductive FetchResult (Id : Type) where
  /-- The promise rejects (network error). -/
  | rejected
  /-- A response with `res.ok`, `res.status` and the value of `res.json()`
  (`none` when the body is not a JSON document). -/
  | response (ok : Bool) (status : Nat) (body : Option (Document Id))
  deriving DecidableEq, Repr

/-- The key of `state.cache`: the object `{ q, d, fav }` that `runQuery` serialises. -/
structure CacheKey where
  q : JSString
  d : JSString
  fav : Bool
  deriving DecidableEq, Repr

/-- The object `state`. -/
structure State (Id : Type) where
  search : JSString
  domain : JSString
  favorites : List Id
  viewFavorites : Bool
  cache : List (CacheKey × List (Term Id))

/-- The page: its globals and what it shows. -/
structure World (Id : Type) where
  /-- The variable `dataPromise`: `none` is `null`, otherwise the outcome of the promise. -/
  dataPromise : Option (Except JSError (Document Id))
  state : State Id
  /-- The store `localStorage`, as a map from keys to values. -/
  localStorage : List (JSString × JSString)
  /-- The list last given to `renderResults`. -/
  results : List (Term Id)
  /-- The row last given to `showSpotlight`. -/
  spotlight : Option (Term Id)
  /-- The errors given to `showError`, latest first. -/
  errors : List JSError
  /-- How many times `fetch` has been called. -/
  fetchCount : Nat
  /-- How many times `apiGet` has been called. -/
  apiGetCount : Nat

/-! ## The functions of `main.js` -/

variable {Id : Type}

/-- The initial value of `state.favorites`:
`new Set(JSON.parse(localStorage.getItem('favorites') || '[]'))`. -/
def initFavorites [DecidableEq Id] (B : Builtins Id) (localStorage : List (JSString × JSString)) :
    Except JSError (List Id) :=
  let stored := mapGet localStorage (js "favorites")
  let text := if orEmpty stored = [] then js "[]" else orEmpty stored
  match B.parse text with
  | .error e => .error e
  | .ok .null => .ok []
  | .ok (.iterable elems) => .ok (setFrom elems)
  | .ok .notIterable => .error .typeError

/-- The body of the promise built in `loadData`: fetch, check `res.ok`, read the JSON. -/
def fetchDocument (net : FetchResult Id) : Except JSError (Document Id) :=
  match net with
  | .rejected => .error .fetchRejected
  | .response ok status body =>
    if !ok then .error (.badStatus status)
    else match body with
      | none => .error .malformedDocument
      | some doc => .ok doc

/-- The function `loadData`; `net` is what `fetch` does if it is called now.
Returns the new page and the outcome of the returned promise. -/
def loadData (net : FetchResult Id) (w : World Id) : World Id × Except JSError (Document Id) :=
  match w.dataPromise with
  | none =>
    let p := fetchDocument net
    ({ w with dataPromise := some p, fetchCount := w.fetchCount + 1 }, p)
  | some p => (w, p)

/-- The test of the search filter of `apiGet` on one item. -/
def matchesText (B : Builtins Id) (q : JSString) (item : Term Id) : Bool :=
  [orEmpty item.name, orEmpty item.abbr, orEmpty item.definition].any
    (fun f => includes (B.toLowerCase f) q)

/-- The body of `apiGet` after `await loadData()`; `rnd` is the value of `Math.random()`,
a double. -/
def apiGetOn (B : Builtins Id) (rnd : Nat) (data : Document Id) (params : Params) :
    ApiResult Id :=
  let items := data.items.getD []
  let q := B.toLowerCase (trim (orEmpty params.q))
  let domain := trim (orEmpty params.domain)
  if params.domains then
    .domains (jsSort B.localeCompare (setFrom (filterBoolean (items.map (fun i => i.domain)))))
  else
    let rows := if domain ≠ [] then items.filter (fun item => item.domain = some domain) else items
    let rows := if q ≠ [] then rows.filter (fun item => matchesText B q item) else rows
    if params.random then
      if rows.length = 0 then .item none
      else .item (rows.get? (randomIndex rnd rows.length))
    else .items rows

/-- The function `apiGet`. -/
def apiGet (B : Builtins Id) (net : FetchResult Id) (rnd : Nat) (params : Params) (w : World Id) :
    World Id × Except JSError (ApiResult Id) :=
  let w1 := { w with apiGetCount := w.apiGetCount + 1 }
  match loadData net w1 with
  | (w2, .error e) => (w2, .error e)
  | (w2, .ok data) => (w2, .ok (apiGetOn B rnd data params))

/-- The function `runQuery`. -/
def runQuery [DecidableEq Id] (B : Builtins Id) (net : FetchResult Id) (w : World Id) : World Id :=
  let w0 : World Id :=
    if w.state.viewFavorites = true ∧ w.state.favorites.length = 0 then
      { w with state := { w.state with viewFavorites := false } }
    else w
  let key : CacheKey := { q := w0.state.search, d := w0.state.domain, fav := w0.state.viewFavorites }
  let cached := if w0.state.viewFavorites = false then mapGet w0.state.cache key else none
  match cached with
  | some rows => { w0 with results := rows }
  | none =>
    let params : Params :=
      { q := some (orEmpty (some w0.state.search)), domain := some (orEmpty (some w0.state.domain)),
        domains := false, random := false }
    let (w1, data) :=
      match apiGet B net 0 params w0 with
      | (w1, .ok data) => (w1, data)
      | (w1, .error e) => ({ w1 with errors := e :: w1.errors }, ApiResult.items [])
    let rows := match data with
      | .items rows => rows
      | _ => []
    let rows :=
      if w1.state.viewFavorites = true then rows.filter (fun r => decide (r.id ∈ w1.state.favorites))
      else rows
    let w2 : World Id :=
      if w1.state.viewFavorites = false then
        { w1 with state := { w1.state with cache := mapSet w1.state.cache key rows } }
      else w1
    { w2 with results := rows }

/-- The function `onRandom`; `rnd` is the value of `Math.random()`. -/
def onRandom (B : Builtins Id) (net : FetchResult Id) (rnd : Nat) (w : World Id) : World Id :=
  let params : Params :=
    { q := none, domain := some (orEmpty (some w.state.domain)), domains := false, random := true }
  match apiGet B net rnd params w with
  | (w1, .ok data) =>
    let row := match data with
      | .item t => t
      | _ => none
    { w1 with spotlight := row }
  | (w1, .error e) => { w1 with errors := e :: w1.errors }

/-- The function `toggleFavorite`. -/
def toggleFavorite [DecidableEq Id] (B : Builtins Id) (net : FetchResult Id) (id : Id) (w : World Id) : World Id :=
  let favorites :=
    if id ∈ w.state.favorites then setDelete w.state.favorites id else setAdd w.state.favorites id
  let w1 : World Id :=
    { w with
      state := { w.state with favorites := favorites, cache := [] }
      localStorage := mapSet w.localStorage (js "favorites") (B.stringify favorites) }
  runQuery B net w1

/-- The handler of the `input` event of the search box, once the debounce delay has passed. -/
def onSearchInput [DecidableEq Id] (B : Builtins Id) (net : FetchResult Id) (value : JSString) (w : World Id) :
    World Id :=
  runQuery B net { w with state := { w.state with search := trim value } }

/-- The handler of the `change` event of the domain selector. -/
def onDomainChange [DecidableEq Id] (B : Builtins Id) (net : FetchResult Id) (value : JSString) (w : World Id) :
    World Id :=
  runQuery B net { w with state := { w.state with domain := value } }

/-- The handler of the favorites-view button. -/
def onFavoritesView [DecidableEq Id] (B : Builtins Id) (net : FetchResult Id) (w : World Id) : World Id :=
  runQuery B net { w with state := { w.state with viewFavorites := !w.state.viewFavorites } }

/-- The page after `n` calls of `toggleFavorite(id)`, the `k`-th call made while `fetch`
would behave as `nets k`. -/
def toggleTimes [DecidableEq Id] (B : Builtins Id) (nets : Nat → FetchResult Id) (id : Id) :
    Nat → World Id → World Id
  | 0, w => w
  | n + 1, w => toggleFavorite B (nets n) id (toggleTimes B nets id n w)

/-- The page when the script starts, for a given content of `localStorage`; the script
stops with an error when the initial value of `state.favorites` cannot be computed. -/
def initWorld [DecidableEq Id] (B : Builtins Id) (localStorage : List (JSString × JSString)) :
    Except JSError (World Id) :=
  match initFavorites B localStorage with
  | .error e => .error e
  | .ok favorites =>
    .ok { dataPromise := none
          state := { search := [], domain := [], favorites := favorites, viewFavorites := false,
                     cache := [] }
          localStorage := localStorage
          results := [], spotlight := none, errors := [], fetchCount := 0, apiGetCount := 0 }

/-! ## A concrete instance of the builtins, for the examples -/

/-- Lower case of the letters `A`..`Z`; this is `toLowerCase` on strings of ASCII characters. -/
def asciiLower (s : JSString) : JSString := s.map Char.toLower

/-- Comparison by code points, first difference decides.  On words that differ in their
first letter, both capitals of the Russian alphabet other than `Ё`, this is the order of
`localeCompare(_, 'ru')`. -/
def codePointCompare : JSString → JSString → Int
  | [], [] => 0
  | [], _ :: _ => -1
  | _ :: _, [] => 1
  | a :: as, b :: bs =>
    if a.toNat < b.toNat then -1
    else if b.toNat < a.toNat then 1
    else codePointCompare as bs

/-- The text `JSON.stringify` gives for an array of natural numbers. -/
def stringifyNats (ids : List Nat) : JSString :=
  js "[" ++ (js ",").intercalate (ids.map (fun n => Nat.toDigits 10 n)) ++ js "]"

/-- Reads a run of decimal digits as a number. -/
def readDigits (acc : Nat) : List Char → Option Nat
  | [] => some acc
  | c :: cs => if c.isDigit then readDigits (acc * 10 + (c.toNat - 48)) cs else none

/-- Reads a JSON number that is a natural number: `0`, or digits not starting with `0`. -/
def readNat (s : List Char) : Option Nat :=
  match s with
  | [] => none
  | [c] => if c.isDigit then some (c.toNat - 48) else none
  | c :: cs => if c = '0' then none else readDigits 0 (c :: cs)

/-- Splits a string at the commas. -/
def splitCommas : List Char → List (List Char)
  | [] => [[]]
  | c :: cs =>
    match splitCommas cs with
    | [] => [[c]]
    | part :: parts => if c = ',' then [] :: part :: parts else (c :: part) :: parts

/-- A reader for a fragment of JSON: `null`, `true`, `false`, a natural number, and an
array of natural numbers, written without white space.  On these texts, and on texts that
are not JSON at all, it returns what `JSON.parse` returns.  It reports every other text as
a syntax error, so it stands for `JSON.parse` only on the texts just named. -/
def parseNats (text : JSString) : Except JSError (Parsed Nat) :=
  if text = js "null" then .ok .null
  else if text = js "true" ∨ text = js "false" then .ok .notIterable
  else if (readNat text).isSome then .ok .notIterable
  else if text = js "[]" then .ok (.iterable [])
  else match text with
    | '[' :: rest =>
      match rest.getLast? with
      | some ']' =>
        match (splitCommas rest.dropLast).mapM readNat with
        | some ids => .ok (.iterable ids)
        | none => .error .parseError
      | _ => .error .parseError
    | _ => .error .parseError

/-- The builtins used in the examples, for identifiers that are natural numbers. -/
def refBuiltins : Builtins Nat where
  toLowerCase := asciiLower
  localeCompare := codePointCompare
  stringify := stringifyNats
  parse := parseNats

/-! ## Views of the results, examples -/

deriving instance DecidableEq for Except

/-- The value of `data.items || []` for the object `apiGet` resolves to. -/
def itemsOf : ApiResult Id → List (Term Id)
  | .items rows => rows
  | _ => []

/-- The value of `data.domains || []` for the object `apiGet` resolves to. -/
def domainsOf : ApiResult Id → List JSString
  | .domains ds => ds
  | _ => []

/-- The value of `data.item || null` for the object `apiGet` resolves to. -/
def itemOf : ApiResult Id → Option (Term Id)
  | .item t => t
  | _ => none

/-- The list `apiGet({ q, domain })` resolves to on a loaded document. -/
def termList (B : Builtins Id) (data : Document Id) (q domain : JSString) : List (Term Id) :=
  itemsOf (apiGetOn B 0 data { q := some q, domain := some domain, domains := false, random := false })

/-- The list `apiGet({ domains: 1 })` resolves to on a loaded document. -/
def domainList (B : Builtins Id) (data : Document Id) : List JSString :=
  domainsOf (apiGetOn B 0 data { q := none, domain := none, domains := true, random := false })

/-- The item `apiGet({ random: 1, domain })` resolves to on a loaded document when
`Math.random()` returns `rnd`. -/
def randomTerm (B : Builtins Id) (rnd : Nat) (data : Document Id) (domain : JSString) :
    Option (Term Id) :=
  itemOf (apiGetOn B rnd data { q := none, domain := some domain, domains := false, random := true })

/-- The outcome of the promise that `loadData` returns. -/
def loaded (net : FetchResult Id) (w : World Id) : Except JSError (Document Id) :=
  (loadData net w).2

/-- The rows `runQuery` takes from `apiGet`: the list for a loaded document, and `[]` after
`showError` when the load failed. -/
def rowsOf (B : Builtins Id) (p : Except JSError (Document Id)) (q domain : JSString) :
    List (Term Id) :=
  match p with
  | .ok data => termList B data q domain
  | .error _ => []

/-- The domain constraint as the specification words it: an empty `domain` is no
constraint, a non-empty one asks for a `domain` field equal to it. -/
def satisfiesDomain (domain : JSString) (t : Term Id) : Prop :=
  domain = [] ∨ t.domain = some domain

/-- Item 1 of the end-to-end scenario of the specification. -/
def apiTerm : Term Nat :=
  { id := 1, name := some (js "API"), abbr := none, domain := some (js "Tech"),
    definition := some (js "Interface") }

/-- Item 2 of the end-to-end scenario. -/
def cpuTerm : Term Nat :=
  { id := 2, name := some (js "CPU"), abbr := none, domain := some (js "Tech"),
    definition := some (js "Processor") }

/-- Item 3 of the end-to-end scenario. -/
def gdpTerm : Term Nat :=
  { id := 3, name := some (js "GDP"), abbr := none, domain := some (js "Econ"),
    definition := some (js "Output measure") }

/-- The dataset of the end-to-end scenario. -/
def exampleItems : List (Term Nat) := [apiTerm, cpuTerm, gdpTerm]

/-- The document of the end-to-end scenario. -/
def exampleDocument : Document Nat := { items := some exampleItems }

/-- A page right after start, with nothing stored and nothing loaded. -/
def freshWorld : World Nat :=
  { dataPromise := none
    state := { search := [], domain := [], favorites := [], viewFavorites := false, cache := [] }
    localStorage := []
    results := [], spotlight := none, errors := [], fetchCount := 0, apiGetCount := 0 }

/-- The page of the end-to-end scenario in the favorites view: domain `Tech`, search
`processor`, term 2 favorited. -/
def favoritesViewWorld : World Nat :=
  { freshWorld with
    state := { search := js "processor", domain := js "Tech", favorites := [2],
               viewFavorites := true, cache := [] } }

/-- A dataset whose only term has the domain `"Tech "`, with a space at the end. -/
def paddedDocument : Document Nat :=
  { items := some [ { id := 1, name := some (js "API"), abbr := none,
                      domain := some (js "Tech "), definition := some (js "Interface") } ] }

/-- A page right after start in which the domain `"Tech "` has been selected. -/
def paddedWorld : World Nat :=
  { freshWorld with
    state := { search := [], domain := js "Tech ", favorites := [], viewFavorites := false,
               cache := [] } }

/-- The double nearest to `0.6`, which is `5404319552844595 * 2^-53`. -/
def pointSix : Nat := 5404319552844595 * 2 ^ 1021

/-- A `fetch` that succeeds with the document of the end-to-end scenario. -/
def exampleFetch : FetchResult Nat := .response true 200 (some exampleDocument)

/-! ## Lemmas on strings, sets, maps -/

theorem includes_nil (s : JSString) : includes s [] = true := by
  cases s <;> simp [includes]

theorem includes_iff_occurs (s q : JSString) : includes s q = true ↔ q <:+: s := by
  induction s with
  | nil => cases q <;> simp [includes]
  | cons c cs ih =>
    simp only [includes, Bool.or_eq_true, ih, List.isPrefixOf_iff_prefix]
    rw [List.infix_cons_iff]

theorem mem_setAdd {α : Type} [DecidableEq α] (s : List α) (x y : α) :
    y ∈ setAdd s x ↔ y ∈ s ∨ y = x := by
  unfold setAdd
  split
  · constructor
    · intro h; exact Or.inl h
    · rintro (h | h)
      · exact h
      · subst h; assumption
  · simp

theorem nodup_setAdd {α : Type} [DecidableEq α] (s : List α) (x : α) (h : s.Nodup) :
    (setAdd s x).Nodup := by
  unfold setAdd
  split
  · exact h
  · rename_i hx
    rw [List.nodup_append]
    refine ⟨h, List.nodup_singleton x, ?_⟩
    intro a ha hb
    simp only [List.mem_singleton] at hb
    subst hb
    exact hx ha

theorem mem_foldl_setAdd {α : Type} [DecidableEq α] (xs acc : List α) (y : α) :
    y ∈ xs.foldl setAdd acc ↔ y ∈ acc ∨ y ∈ xs := by
  induction xs generalizing acc with
  | nil => simp
  | cons x xs ih =>
    simp only [List.foldl_cons, ih, mem_setAdd, List.mem_cons]
    tauto

theorem nodup_foldl_setAdd {α : Type} [DecidableEq α] (xs acc : List α) (h : acc.Nodup) :
    (xs.foldl setAdd acc).Nodup := by
  induction xs generalizing acc with
  | nil => simpa using h
  | cons x xs ih => exact ih _ (nodup_setAdd acc x h)

theorem mem_setFrom {α : Type} [DecidableEq α] (xs : List α) (y : α) :
    y ∈ setFrom xs ↔ y ∈ xs := by
  simp [setFrom, mem_foldl_setAdd]

theorem nodup_setFrom {α : Type} [DecidableEq α] (xs : List α) : (setFrom xs).Nodup :=
  nodup_foldl_setAdd xs [] List.nodup_nil

theorem mem_setDelete {α : Type} [DecidableEq α] (s : List α) (x y : α) :
    y ∈ setDelete s x ↔ y ∈ s ∧ y ≠ x := by
  simp [setDelete]

theorem mem_filterBoolean (l : List (Option JSString)) (d : JSString) :
    d ∈ filterBoolean l ↔ d ≠ [] ∧ some d ∈ l := by
  induction l with
  | nil => simp [filterBoolean]
  | cons x rest ih =>
    match x with
    | none => simp [filterBoolean, ih]
    | some [] =>
      simp only [filterBoolean, ih, List.mem_cons, Option.some.injEq]
      constructor
      · rintro ⟨h1, h2⟩; exact ⟨h1, Or.inr h2⟩
      · rintro ⟨h1, h2 | h2⟩
        · exact absurd h2 h1
        · exact ⟨h1, h2⟩
    | some (c :: cs) =>
      simp only [filterBoolean, ih, List.mem_cons, Option.some.injEq]
      constructor
      · rintro (h | ⟨h1, h2⟩)
        · subst h; simp
        · exact ⟨h1, Or.inr h2⟩
      · rintro ⟨h1, h2 | h2⟩
        · exact Or.inl h2
        · exact Or.inr ⟨h1, h2⟩

theorem mapGet_mapSet {κ β : Type} [DecidableEq κ] (m : List (κ × β)) (k : κ) (v : β) :
    mapGet (mapSet m k v) k = some v := by
  induction m with
  | nil => simp [mapSet, mapGet]
  | cons p rest ih =>
    obtain ⟨k', v'⟩ := p
    by_cases h : k' = k
    · simp [mapSet, mapGet, h]
    · simp [mapSet, mapGet, h, ih]

theorem perm_jsSort {α : Type} (cmp : α → α → Int) (xs : List α) : (jsSort cmp xs).Perm xs :=
  List.perm_insertionSort _ xs

theorem sorted_jsSort {α : Type} (cmp : α → α → Int)
    (htotal : ∀ a b, cmp a b ≤ 0 ∨ cmp b a ≤ 0)
    (htrans : ∀ a b c, cmp a b ≤ 0 → cmp b c ≤ 0 → cmp a c ≤ 0) (xs : List α) :
    (jsSort cmp xs).Pairwise (fun a b => cmp a b ≤ 0) := by
  haveI : IsTotal α (fun a b => cmp a b ≤ 0) := ⟨htotal⟩
  haveI : IsTrans α (fun a b => cmp a b ≤ 0) := ⟨htrans⟩
  exact List.sorted_insertionSort (fun a b => cmp a b ≤ 0) xs

/-! ## Lemmas on the query engine -/

theorem termList_eq (B : Builtins Id) (data : Document Id) (q domain : JSString) :
    termList B data q domain =
      (if B.toLowerCase (trim q) ≠ [] then
        (if trim domain ≠ [] then
          (data.items.getD []).filter (fun item => item.domain = some (trim domain))
         else data.items.getD []).filter (fun item => matchesText B (B.toLowerCase (trim q)) item)
       else
        (if trim domain ≠ [] then
          (data.items.getD []).filter (fun item => item.domain = some (trim domain))
         else data.items.getD [])) := by
  simp only [termList, apiGetOn, orEmpty, Option.getD_some, Bool.false_eq_true, if_false, itemsOf]

theorem domainList_eq (B : Builtins Id) (data : Document Id) :
    domainList B data =
      jsSort B.localeCompare
        (setFrom (filterBoolean ((data.items.getD []).map (fun i => i.domain)))) := by
  simp [domainList, apiGetOn, domainsOf]

theorem termList_sublist (B : Builtins Id) (data : Document Id) (q domain : JSString) :
    (termList B data q domain).Sublist (data.items.getD []) := by
  rw [termList_eq]
  split <;> split
  · exact (List.filter_sublist _).trans (List.filter_sublist _)
  · exact List.filter_sublist _
  · exact List.filter_sublist _
  · exact List.Sublist.refl _

theorem mem_domainList (B : Builtins Id) (data : Document Id) (d : JSString) :
    d ∈ domainList B data ↔ d ≠ [] ∧ ∃ t ∈ data.items.getD [], t.domain = some d := by
  rw [domainList_eq, (perm_jsSort _ _).mem_iff, mem_setFrom, mem_filterBoolean]
  simp only [List.mem_map]

theorem codePointCompare_total (a b : JSString) :
    codePointCompare a b ≤ 0 ∨ codePointCompare b a ≤ 0 := by
  induction a generalizing b with
  | nil => cases b <;> simp [codePointCompare]
  | cons x xs ih =>
    cases b with
    | nil => simp [codePointCompare]
    | cons y ys =>
      simp only [codePointCompare]
      have := ih ys
      split_ifs <;> omega

theorem codePointCompare_trans (a b c : JSString)
    (h1 : codePointCompare a b ≤ 0) (h2 : codePointCompare b c ≤ 0) :
    codePointCompare a c ≤ 0 := by
  induction a generalizing b c with
  | nil => cases c <;> simp [codePointCompare]
  | cons x xs ih =>
    cases b with
    | nil => simp [codePointCompare] at h1
    | cons y ys =>
      cases c with
      | nil => simp [codePointCompare] at h2
      | cons z zs =>
        simp only [codePointCompare] at h1 h2 ⊢
        split_ifs at h1 h2 ⊢ <;> first | omega | exact ih ys zs h1 h2

/-! ## Lemmas on the loader and on `runQuery` -/

theorem loaded_eq (net : FetchResult Id) (w : World Id) :
    loaded net w = (match w.dataPromise with
      | none => fetchDocument net
      | some p => p) := by
  unfold loaded loadData; split <;> simp_all

theorem loadData_fst (net : FetchResult Id) (w : World Id) :
    (loadData net w).1.state = w.state ∧ (loadData net w).1.localStorage = w.localStorage ∧
    (loadData net w).1.apiGetCount = w.apiGetCount ∧
    (loadData net w).1.dataPromise = some (loaded net w) := by
  unfold loaded loadData; split <;> simp_all

theorem loaded_bump (net : FetchResult Id) (w : World Id) (n : Nat) :
    loaded net { w with apiGetCount := n } = loaded net w := by
  simp [loaded_eq]

theorem loadData_memo (net1 net2 : FetchResult Id) (w : World Id) :
    loadData net2 (loadData net1 w).1 = ((loadData net1 w).1, (loadData net1 w).2) := by
  cases hd : w.dataPromise <;> simp [loadData, hd]

theorem runQuery_hit [DecidableEq Id] (B : Builtins Id) (net : FetchResult Id) (w : World Id)
    (rows : List (Term Id)) (hv : w.state.viewFavorites = false)
    (hc : mapGet w.state.cache ⟨w.state.search, w.state.domain, false⟩ = some rows) :
    runQuery B net w = { w with results := rows } := by
  simp [runQuery, hv, hc]

theorem runQuery_autodisable [DecidableEq Id] (B : Builtins Id) (net : FetchResult Id)
    (w : World Id) (hf : w.state.favorites = []) :
    runQuery B net w =
      runQuery B net { w with state := { w.state with viewFavorites := false } } := by
  cases hv : w.state.viewFavorites
  · have : w = { w with state := { w.state with viewFavorites := false } } := by
      cases w with
      | mk dp st ls rs sp er fc ac => cases st; simp_all
    rw [← this]
  · simp [runQuery, hv, hf]

theorem runQuery_miss [DecidableEq Id] (B : Builtins Id) (net : FetchResult Id) (w : World Id)
    (hv : w.state.viewFavorites = false)
    (hc : mapGet w.state.cache ⟨w.state.search, w.state.domain, false⟩ = none) :
    runQuery B net w =
      { (loadData net { w with apiGetCount := w.apiGetCount + 1 }).1 with
        errors := (match loaded net w with
          | .ok _ => (loadData net { w with apiGetCount := w.apiGetCount + 1 }).1.errors
          | .error e => e :: (loadData net { w with apiGetCount := w.apiGetCount + 1 }).1.errors)
        state := { w.state with
          cache := mapSet w.state.cache ⟨w.state.search, w.state.domain, false⟩
            (rowsOf B (loaded net w) w.state.search w.state.domain) }
        results := rowsOf B (loaded net w) w.state.search w.state.domain } := by
  rw [← loaded_bump net w (w.apiGetCount + 1)]
  unfold loaded
  have hs := (loadData_fst net { w with apiGetCount := w.apiGetCount + 1 }).1
  rcases hl : loadData net { w with apiGetCount := w.apiGetCount + 1 } with ⟨w1, p⟩
  rw [hl] at hs
  simp only at hs
  cases p <;> simp [runQuery, apiGet, hv, hc, hl, hs, rowsOf, termList, orEmpty, itemsOf]

theorem runQuery_view [DecidableEq Id] (B : Builtins Id) (net : FetchResult Id) (w : World Id)
    (hv : w.state.viewFavorites = true) (hf : w.state.favorites ≠ []) :
    runQuery B net w =
      { (loadData net { w with apiGetCount := w.apiGetCount + 1 }).1 with
        errors := (match loaded net w with
          | .ok _ => (loadData net { w with apiGetCount := w.apiGetCount + 1 }).1.errors
          | .error e => e :: (loadData net { w with apiGetCount := w.apiGetCount + 1 }).1.errors)
        results := (rowsOf B (loaded net w) w.state.search w.state.domain).filter
          (fun r => decide (r.id ∈ w.state.favorites)) } := by
  rw [← loaded_bump net w (w.apiGetCount + 1)]
  unfold loaded
  have hs := (loadData_fst net { w with apiGetCount := w.apiGetCount + 1 }).1
  rcases hl : loadData net { w with apiGetCount := w.apiGetCount + 1 } with ⟨w1, p⟩
  rw [hl] at hs
  simp only at hs
  cases p <;> simp [runQuery, apiGet, hv, hf, hl, hs, rowsOf, termList, orEmpty, itemsOf]

theorem runQuery_frame [DecidableEq Id] (B : Builtins Id) (net : FetchResult Id) (w : World Id) :
    (runQuery B net w).state.favorites = w.state.favorites ∧
    (runQuery B net w).localStorage = w.localStorage ∧
    (runQuery B net w).state.viewFavorites =
      (w.state.viewFavorites && decide (w.state.favorites ≠ [])) := by
  have key : ∀ w0 : World Id, w0.state.viewFavorites = false →
      (runQuery B net w0).state.favorites = w0.state.favorites ∧
      (runQuery B net w0).localStorage = w0.localStorage ∧
      (runQuery B net w0).state.viewFavorites = false := by
    intro w0 hv
    cases hc : mapGet w0.state.cache ⟨w0.state.search, w0.state.domain, false⟩ with
    | none =>
      rw [runQuery_miss B net w0 hv hc]
      simp [hv, (loadData_fst net { w0 with apiGetCount := w0.apiGetCount + 1 }).2.1]
    | some rows =>
      rw [runQuery_hit B net w0 rows hv hc]
      simp [hv]
  by_cases hf : w.state.favorites = []
  · rw [runQuery_autodisable B net w hf]
    have := key { w with state := { w.state with viewFavorites := false } } rfl
    simpa [hf] using this
  · cases hv : w.state.viewFavorites with
    | false => simpa [hv, hf] using key w hv
    | true =>
      rw [runQuery_view B net w hv hf]
      have h := loadData_fst net { w with apiGetCount := w.apiGetCount + 1 }
      simp [hv, hf, h.1, h.2.1]

theorem runQuery_again [DecidableEq Id] (B : Builtins Id) (net1 net2 : FetchResult Id)
    (w : World Id) (hv : w.state.viewFavorites = false) :
    runQuery B net2 (runQuery B net1 w) = runQuery B net1 w ∧
    mapGet (runQuery B net1 w).state.cache ⟨w.state.search, w.state.domain, false⟩ =
      some (runQuery B net1 w).results := by
  cases hc : mapGet w.state.cache ⟨w.state.search, w.state.domain, false⟩ with
  | none =>
    rw [runQuery_miss B net1 w hv hc]
    refine ⟨?_, by simp [mapGet_mapSet]⟩
    rw [runQuery_hit B net2 _ (rowsOf B (loaded net1 w) w.state.search w.state.domain)
      (by simp [hv]) (by simp [mapGet_mapSet])]
  | some rows =>
    rw [runQuery_hit B net1 w rows hv hc]
    refine ⟨?_, by simp [hc]⟩
    rw [runQuery_hit B net2 _ rows (by simp [hv]) (by simp [hc])]

theorem runQuery_again_view [DecidableEq Id] (B : Builtins Id) (net1 net2 : FetchResult Id)
    (w : World Id) (hv : w.state.viewFavorites = true) (hf : w.state.favorites ≠ []) :
    (runQuery B net2 (runQuery B net1 w)).results = (runQuery B net1 w).results ∧
    (runQuery B net2 (runQuery B net1 w)).apiGetCount = (runQuery B net1 w).apiGetCount + 1 ∧
    (runQuery B net2 (runQuery B net1 w)).fetchCount = (runQuery B net1 w).fetchCount := by
  have h := loadData_fst net1 { w with apiGetCount := w.apiGetCount + 1 }
  have e1 := runQuery_view B net1 w hv hf
  have hs : (runQuery B net1 w).state = w.state := by rw [e1]; simp [h.1]
  have hd : (runQuery B net1 w).dataPromise = some (loaded net1 w) := by
    rw [e1]; simp [h.2.2.2, loaded_bump]
  have hl : loaded net2 (runQuery B net1 w) = loaded net1 w := by
    rw [loaded_eq, hd]
  have e2 := runQuery_view B net2 (runQuery B net1 w) (by rw [hs]; exact hv) (by rw [hs]; exact hf)
  rw [e2, hl, hs]
  refine ⟨by rw [e1], ?_, ?_⟩
  · simp [loadData, hd]
  · simp [loadData, hd]

theorem toggleFavorite_spec [DecidableEq Id] (B : Builtins Id) (net : FetchResult Id) (id : Id)
    (w : World Id) :
    (toggleFavorite B net id w).state.favorites =
      (if id ∈ w.state.favorites then setDelete w.state.favorites id
       else setAdd w.state.favorites id) ∧
    mapGet (toggleFavorite B net id w).localStorage (js "favorites") =
      some (B.stringify (toggleFavorite B net id w).state.favorites) := by
  unfold toggleFavorite
  simp only
  have h := runQuery_frame B net
    { w with
      state := { w.state with
        favorites := (if id ∈ w.state.favorites then setDelete w.state.favorites id
          else setAdd w.state.favorites id), cache := [] }
      localStorage := mapSet w.localStorage (js "favorites")
        (B.stringify (if id ∈ w.state.favorites then setDelete w.state.favorites id
          else setAdd w.state.favorites id)) }
  rw [h.1, h.2.1]
  exact ⟨rfl, mapGet_mapSet _ _ _⟩

theorem toggleFavorite_mem [DecidableEq Id] (B : Builtins Id) (net : FetchResult Id) (id : Id)
    (w : World Id) (j : Id) :
    j ∈ (toggleFavorite B net id w).state.favorites ↔
      (if j = id then id ∉ w.state.favorites else j ∈ w.state.favorites) := by
  rw [(toggleFavorite_spec B net id w).1]
  by_cases hid : id ∈ w.state.favorites
  · by_cases hj : j = id
    · subst hj; simp [hid, mem_setDelete]
    · simp [hid, hj, mem_setDelete]
  · by_cases hj : j = id
    · subst hj; simp [hid, mem_setAdd]
    · simp [hid, hj, mem_setAdd]

theorem floorLog2Aux_spec (fuel k : Nat) (hk : k ≠ 0) (hf : k ≤ fuel) :
    2 ^ floorLog2Aux fuel k ≤ k ∧ k < 2 ^ (floorLog2Aux fuel k + 1) := by
  induction fuel generalizing k with
  | zero => omega
  | succ fuel ih =>
    simp only [floorLog2Aux]
    split
    · simp; omega
    · have h := ih (k / 2) (by omega) (by omega)
      rw [pow_succ, pow_succ]
      omega

theorem floorLog2_spec (k : Nat) (hk : k ≠ 0) :
    2 ^ floorLog2 k ≤ k ∧ k < 2 ^ (floorLog2 k + 1) :=
  floorLog2Aux_spec k k hk (le_refl k)

theorem lt_of_two_pow_lt (a b : Nat) (h : 2 ^ a < 2 ^ b) : a < b :=
  (Nat.pow_lt_pow_iff_right (by norm_num : 1 < 2)).mp h

theorem roundDouble_le (k : Nat) : 2 * roundDouble k ≤ 2 * k + 2 ^ (floorLog2 k - 52) := by
  unfold roundDouble
  simp only
  have h := Nat.div_add_mod k (2 ^ (floorLog2 k - 52))
  generalize 2 ^ (floorLog2 k - 52) = p at h ⊢
  generalize k / p = q at h ⊢
  generalize k % p = r at h ⊢
  have e1 : (q + 1) * p = p * q + p := by ring
  have e2 : q * p = p * q := by ring
  split_ifs <;> rw [← h] <;> first | rw [e1] | rw [e2]
  all_goals omega

theorem roundDouble_dvd (k : Nat) : 2 ^ (floorLog2 k - 52) ∣ roundDouble k := by
  unfold roundDouble
  simp only
  split_ifs <;> exact Dvd.intro_left _ rfl

theorem double_below_one (u : Nat) (hd : isDouble u) (h1 : u < 2 ^ 1074) :
    u + 2 ^ 1021 ≤ 2 ^ 1074 := by
  have hU : (2 : Nat) ^ 1074 = 2 ^ 53 * 2 ^ 1021 := by
    rw [show (1074 : Nat) = 53 + 1021 from rfl, pow_add]
  have hV : (2 : Nat) ^ 1073 = 2 ^ 52 * 2 ^ 1021 := by
    rw [show (1073 : Nat) = 52 + 1021 from rfl, pow_add]
  by_cases hlt : u < 2 ^ 1073
  · rw [hU]; rw [hV] at hlt
    generalize (2 : Nat) ^ 1021 = H at *
    have : (2:Nat)^53 = 2 * 2^52 := by rw [← pow_succ']
    have hH : 0 < H := by
      rcases Nat.eq_zero_or_pos H with h | h
      · subst h; simp at hlt
      · exact h
    nlinarith
  · have hu0 : u ≠ 0 := by
      intro h; subst h; exact hlt (by positivity)
    have hs := floorLog2_spec u hu0
    have hL : floorLog2 u = 1073 := by
      have a0 : 2 ^ floorLog2 u < 2 ^ 1074 := lt_of_le_of_lt hs.1 h1
      have b0 : 2 ^ 1073 < 2 ^ (floorLog2 u + 1) := lt_of_le_of_lt (not_lt.mp hlt) hs.2
      have a : floorLog2 u < 1074 := lt_of_two_pow_lt _ _ a0
      have b : 1073 < floorLog2 u + 1 := lt_of_two_pow_lt _ _ b0
      omega
    have hdvd := roundDouble_dvd u
    rw [hd, hL] at hdvd
    obtain ⟨c, hc⟩ := hdvd
    have e : 1073 - 52 = 1021 := by norm_num
    rw [e] at hc
    rw [hU] at h1 ⊢
    generalize (2 : Nat) ^ 1021 = H at *
    subst hc
    have hH : 0 < H := by
      rcases Nat.eq_zero_or_pos H with h | h
      · subst h; simp at h1
      · exact h
    have hc' : c < 2 ^ 53 := by
      by_contra hcon
      have : 2 ^ 53 * H ≤ H * c := by nlinarith [not_lt.mp hcon]
      omega
    nlinarith

theorem randomIndex_lt (rnd n : Nat) (hd : isDouble rnd) (h1 : rnd < 2 ^ 1074) (hn : 0 < n) :
    randomIndex rnd n < n := by
  have hb := double_below_one rnd hd h1
  have hr := roundDouble_le (rnd * n)
  have hU : (2 : Nat) ^ 1074 = 2 ^ 53 * 2 ^ 1021 := by
    rw [show (1074 : Nat) = 53 + 1021 from rfl, pow_add]
  have hp : 2 ^ (floorLog2 (rnd * n) - 52) < 2 * (n * 2 ^ 1021) := by
    by_cases h52 : floorLog2 (rnd * n) ≤ 52
    · have : floorLog2 (rnd * n) - 52 = 0 := by omega
      rw [this]
      have hH : 0 < (2:Nat) ^ 1021 := pow_pos (by norm_num) _
      have hnH : 1 ≤ n * 2 ^ 1021 := Nat.mul_pos hn hH
      rw [pow_zero]
      generalize n * (2 : Nat) ^ 1021 = X at hnH ⊢
      omega
    · have hv0 : rnd * n ≠ 0 := by
        intro h
        have h0 : floorLog2 0 = 0 := rfl
        rw [h, h0] at h52
        exact h52 (Nat.zero_le 52)
      have hs := (floorLog2_spec (rnd * n) hv0).1
      have hL : floorLog2 (rnd * n) = (floorLog2 (rnd * n) - 52) + 52 := by omega
      have hsplit : (2:Nat) ^ floorLog2 (rnd * n) = 2 ^ (floorLog2 (rnd * n) - 52) * 2 ^ 52 := by
        generalize floorLog2 (rnd * n) - 52 = d at hL ⊢
        rw [hL, pow_add]
      rw [hsplit] at hs
      have hvlt : rnd * n < 2 ^ 1074 * n := Nat.mul_lt_mul_of_pos_right h1 hn
      rw [hU] at hvlt
      generalize (2 : Nat) ^ (floorLog2 (rnd * n) - 52) = P at *
      generalize (2 : Nat) ^ 1021 = H at *
      have h53 : (2:Nat) ^ 53 = 2 * 2 ^ 52 := by rw [← pow_succ']
      rw [h53] at hvlt
      have : P * 2 ^ 52 < (2 * (n * H)) * 2 ^ 52 := by nlinarith
      exact Nat.lt_of_mul_lt_mul_right this
  unfold randomIndex mathFloor
  rw [Nat.div_lt_iff_lt_mul (by positivity)]
  have : (rnd + 2 ^ 1021) * n ≤ 2 ^ 1074 * n := Nat.mul_le_mul_right n hb
  generalize (2 : Nat) ^ (floorLog2 (rnd * n) - 52) = P at *
  generalize (2 : Nat) ^ 1021 = H at *
  generalize (2 : Nat) ^ 1074 = U at *
  nlinarith

theorem randomTerm_eq (B : Builtins Id) (rnd : Nat) (data : Document Id) (domain : JSString)
    (hlow : B.toLowerCase [] = []) :
    randomTerm B rnd data domain =
      (if (termList B data [] domain).length = 0 then none
       else (termList B data [] domain).get?
         (randomIndex rnd (termList B data [] domain).length)) := by
  have ht : trim ([] : JSString) = [] := rfl
  simp only [randomTerm, termList, apiGetOn, orEmpty, Option.getD_none, Option.getD_some, ht,
    hlow, ne_eq, not_true_eq_false, if_false, Bool.false_eq_true, if_true, itemsOf]
  split <;> split <;> simp_all [itemOf]

theorem mem_termList_nil (B : Builtins Id) (data : Document Id) (domain : JSString)
    (hlow : B.toLowerCase [] = []) (t : Term Id) :
    t ∈ termList B data [] domain ↔
      t ∈ data.items.getD [] ∧ satisfiesDomain (trim domain) t := by
  have ht : trim ([] : JSString) = [] := rfl
  rw [termList_eq]
  simp only [ht, hlow, ne_eq, not_true_eq_false, if_false, satisfiesDomain]
  split
  · rename_i h
    simp [List.mem_filter, h]
  · rename_i h
    simp only [not_not] at h
    simp [h]

theorem onRandom_eq (B : Builtins Id) (net : FetchResult Id) (rnd : Nat) (w : World Id)
    (data : Document Id) (hload : loaded net w = .ok data) :
    (onRandom B net rnd w).spotlight = randomTerm B rnd data w.state.domain ∧
    (onRandom B net rnd w).state.cache = w.state.cache := by
  rw [← loaded_bump net w (w.apiGetCount + 1)] at hload
  unfold loaded at hload
  have hs := (loadData_fst net { w with apiGetCount := w.apiGetCount + 1 }).1
  rcases hl : loadData net { w with apiGetCount := w.apiGetCount + 1 } with ⟨w1, p⟩
  rw [hl] at hs hload
  simp only at hs hload
  subst hload
  simp [onRandom, apiGet, hl, hs, randomTerm, orEmpty, itemOf]

/-! ## The claims -/

/-- C1, as stated, fails: the domain constraint is trimmed before it is compared.  With the
non-empty constraint `" Tech"` the list holds the terms whose `domain` is `"Tech"`, which
is not the constraint that was passed. -/
theorem C1_untrimmed_domain_counterexample :
    js " Tech" ≠ [] ∧
    (termList refBuiltins exampleDocument [] (js " Tech")).map (fun t => t.id) = [1, 2] ∧
    ∃ t ∈ termList refBuiltins exampleDocument [] (js " Tech"), t.domain ≠ some (js " Tech") := by
  decide

/-- C1, amended: for every dataset, search text and domain constraint `D` whose trimmed
form is non-empty, every term of the list `apiGet` returns in list mode has its `domain`
field equal to `trim D` exactly. -/
theorem C1_domain_filter (B : Builtins Id) (data : Document Id) (q D : JSString)
    (hD : trim D ≠ []) :
    ∀ t ∈ termList B data q D, t.domain = some (trim D) := by
  intro t ht
  rw [termList_eq] at ht
  simp only [hD, ne_eq, not_false_eq_true, if_true] at ht
  split at ht
  · have := (List.mem_filter.mp ht).1
    simpa using (List.mem_filter.mp this).2
  · simpa using (List.mem_filter.mp ht).2

/-- Witness of C1: the constraint `" Tech"`, whose trimmed form is `"Tech"`, and item 2
of the end-to-end scenario, which is in the returned list. -/
theorem C1_domain_filter_witness :
    trim (js " Tech") ≠ [] ∧
    cpuTerm ∈ termList refBuiltins exampleDocument [] (js " Tech") ∧
    cpuTerm.domain = some (trim (js " Tech")) :=
  ⟨by decide, by decide,
   C1_domain_filter refBuiltins exampleDocument [] (js " Tech") (by decide) cpuTerm (by decide)⟩

/-- C2, as stated, fails: the search text is trimmed before it is looked for.  With the
non-empty text `" cpu"` the list holds the term `CPU`, none of whose fields contains
`" cpu"`, in any letter case. -/
theorem C2_untrimmed_text_counterexample :
    js " cpu" ≠ [] ∧
    (termList refBuiltins exampleDocument (js " cpu") []).map (fun t => t.id) = [2] ∧
    ∃ t ∈ termList refBuiltins exampleDocument (js " cpu") [],
      ∀ f ∈ [orEmpty t.name, orEmpty t.abbr, orEmpty t.definition],
        ¬ (refBuiltins.toLowerCase (js " cpu") <:+: refBuiltins.toLowerCase f) := by
  decide

/-- C2, amended: for every dataset, domain constraint and search text `T`, every term of
the list `apiGet` returns in list mode contains the trimmed text `trim T`, compared in
lower case as a literal substring, in at least one of its `name`, `abbr` or `definition`
fields, a missing field counting as the empty string. -/
theorem C2_text_filter (B : Builtins Id) (data : Document Id) (T D : JSString) :
    ∀ t ∈ termList B data T D,
      ∃ f ∈ [orEmpty t.name, orEmpty t.abbr, orEmpty t.definition],
        B.toLowerCase (trim T) <:+: B.toLowerCase f := by
  intro t ht
  rw [termList_eq] at ht
  split at ht
  · have h := (List.mem_filter.mp ht).2
    simp only [matchesText, List.any_eq_true] at h
    obtain ⟨f, hf, hinc⟩ := h
    exact ⟨f, hf, (includes_iff_occurs _ _).mp hinc⟩
  · rename_i hq
    simp only [ne_eq, not_not] at hq
    exact ⟨orEmpty t.name, by simp, by rw [hq]; exact List.nil_infix⟩

/-- Witness of C2: item 2 of the end-to-end scenario is returned for the text `" cpu"`,
and one of its fields contains `"cpu"` in lower case. -/
theorem C2_text_filter_witness :
    cpuTerm ∈ termList refBuiltins exampleDocument (js " cpu") [] ∧
    ∃ f ∈ [orEmpty cpuTerm.name, orEmpty cpuTerm.abbr, orEmpty cpuTerm.definition],
      refBuiltins.toLowerCase (trim (js " cpu")) <:+: refBuiltins.toLowerCase f :=
  ⟨by decide, C2_text_filter refBuiltins exampleDocument (js " cpu") [] cpuTerm (by decide)⟩

/-- C7: for every dataset, the list `apiGet` returns with the `domains` flag has no
duplicates, holds no empty string, holds exactly the non-empty `domain` values of the
dataset's terms, is sorted in non-decreasing order of the comparison `localeCompare(_, 'ru')`
(a total and transitive comparison), and is empty for a dataset with no items. -/
theorem C7_domain_list (B : Builtins Id) (data : Document Id)
    (htotal : ∀ a b, B.localeCompare a b ≤ 0 ∨ B.localeCompare b a ≤ 0)
    (htrans : ∀ a b c, B.localeCompare a b ≤ 0 → B.localeCompare b c ≤ 0 →
      B.localeCompare a c ≤ 0) :
    (domainList B data).Nodup ∧
    [] ∉ domainList B data ∧
    (∀ d, d ∈ domainList B data ↔ d ≠ [] ∧ ∃ t ∈ data.items.getD [], t.domain = some d) ∧
    (domainList B data).Pairwise (fun a b => B.localeCompare a b ≤ 0) ∧
    (data.items.getD [] = [] → domainList B data = []) := by
  refine ⟨?_, ?_, mem_domainList B data, ?_, ?_⟩
  · rw [domainList_eq]
    exact (perm_jsSort _ _).nodup_iff.mpr (nodup_setFrom _)
  · intro h
    exact ((mem_domainList B data []).mp h).1 rfl
  · rw [domainList_eq]
    exact sorted_jsSort _ htotal htrans _
  · intro h
    rw [domainList_eq, h]
    rfl

/-- Witness of C7: the domains `Экономика`, `Биология`, `Юриспруденция` (one of them twice,
next to an empty and a missing domain) yield `Биология`, `Экономика`, `Юриспруденция`. -/
theorem C7_domain_list_witness :
    domainList refBuiltins
        { items := some
            [ { id := 1, name := none, abbr := none, domain := some (js "Экономика"),
                definition := none },
              { id := 2, name := none, abbr := none, domain := some (js "Биология"),
                definition := none },
              { id := 3, name := none, abbr := none, domain := some (js "Юриспруденция"),
                definition := none },
              { id := 4, name := none, abbr := none, domain := some (js "Биология"),
                definition := none },
              { id := 5, name := none, abbr := none, domain := some [], definition := none },
              { id := 6, name := none, abbr := none, domain := none, definition := none } ] }
      = [js "Биология", js "Экономика", js "Юриспруденция"] ∧
    (domainList refBuiltins exampleDocument).Nodup ∧
    [] ∉ domainList refBuiltins exampleDocument ∧
    (∀ d, d ∈ domainList refBuiltins exampleDocument ↔
      d ≠ [] ∧ ∃ t ∈ exampleDocument.items.getD [], t.domain = some d) ∧
    (domainList refBuiltins exampleDocument).Pairwise
      (fun a b => refBuiltins.localeCompare a b ≤ 0) ∧
    (exampleDocument.items.getD [] = [] → domainList refBuiltins exampleDocument = []) :=
  ⟨by decide,
   C7_domain_list refBuiltins exampleDocument codePointCompare_total codePointCompare_trans⟩

/-- C3: in a page with `viewFavorites` on and a non-empty favorites set, on a dataset that
loads, `runQuery` shows exactly the terms of the list for (`search`, `domain`) whose `id` is
a favorite, in the order of the dataset, and leaves `state.cache` as it was. -/
theorem C3_favorites_view [DecidableEq Id] (B : Builtins Id) (net : FetchResult Id)
    (w : World Id) (data : Document Id)
    (hv : w.state.viewFavorites = true) (hf : w.state.favorites ≠ [])
    (hload : loaded net w = .ok data) :
    (runQuery B net w).results =
      (termList B data w.state.search w.state.domain).filter
        (fun t => decide (t.id ∈ w.state.favorites)) ∧
    (runQuery B net w).results.Sublist (data.items.getD []) ∧
    (runQuery B net w).state.cache = w.state.cache := by
  have h := loadData_fst net { w with apiGetCount := w.apiGetCount + 1 }
  rw [runQuery_view B net w hv hf]
  simp only [hload, rowsOf, h.1, true_and]
  exact ⟨(List.filter_sublist _).trans (termList_sublist B data _ _), trivial⟩

/-- Witness of C3: the end-to-end scenario, where the page shows item 2 only, also when it
is reached through the handlers of the page. -/
theorem C3_favorites_view_witness :
    (runQuery refBuiltins exampleFetch favoritesViewWorld).results.map (fun t => t.id) = [2] ∧
    (onFavoritesView refBuiltins exampleFetch
      (toggleFavorite refBuiltins exampleFetch 2
        (onSearchInput refBuiltins exampleFetch (js "processor")
          (onDomainChange refBuiltins exampleFetch (js "Tech") freshWorld)))).results.map
      (fun t => t.id) = [2] ∧
    ((runQuery refBuiltins exampleFetch favoritesViewWorld).results =
      (termList refBuiltins exampleDocument favoritesViewWorld.state.search
        favoritesViewWorld.state.domain).filter
        (fun t => decide (t.id ∈ favoritesViewWorld.state.favorites)) ∧
    (runQuery refBuiltins exampleFetch favoritesViewWorld).results.Sublist
      (exampleDocument.items.getD []) ∧
    (runQuery refBuiltins exampleFetch favoritesViewWorld).state.cache =
      favoritesViewWorld.state.cache) :=
  ⟨by decide, by decide,
   C3_favorites_view refBuiltins exampleFetch favoritesViewWorld exampleDocument
     (by decide) (by decide) (by decide)⟩

/-- C4, as stated, fails: in the favorites view the cache is not consulted, so the second of
two consecutive `runQuery` calls invokes `apiGet` again. -/
theorem C4_favorites_view_counterexample :
    (runQuery refBuiltins exampleFetch favoritesViewWorld).apiGetCount = 1 ∧
    (runQuery refBuiltins exampleFetch
      (runQuery refBuiltins exampleFetch favoritesViewWorld)).apiGetCount = 2 := by
  decide

/-- C4, amended: two consecutive `runQuery` calls on the same `search` and `domain`, with no
change of the favorites in between, show lists with identical contents; when `viewFavorites`
is off or the favorites set is empty, the second call does not invoke `apiGet` and issues no
fetch, and the list it shows is the one stored in `state.cache`; in the favorites view with
favorites it invokes `apiGet` once more, which issues no new fetch. -/
theorem C4_cache [DecidableEq Id] (B : Builtins Id) (net1 net2 : FetchResult Id)
    (w : World Id) :
    (runQuery B net2 (runQuery B net1 w)).results = (runQuery B net1 w).results ∧
    (runQuery B net2 (runQuery B net1 w)).fetchCount = (runQuery B net1 w).fetchCount ∧
    (w.state.viewFavorites = false ∨ w.state.favorites = [] →
      (runQuery B net2 (runQuery B net1 w)).apiGetCount = (runQuery B net1 w).apiGetCount ∧
      mapGet (runQuery B net1 w).state.cache ⟨w.state.search, w.state.domain, false⟩ =
        some (runQuery B net2 (runQuery B net1 w)).results) ∧
    (w.state.viewFavorites = true ∧ w.state.favorites ≠ [] →
      (runQuery B net2 (runQuery B net1 w)).apiGetCount =
        (runQuery B net1 w).apiGetCount + 1) := by
  by_cases hf : w.state.favorites = []
  · have h := runQuery_again B net1 net2
      { w with state := { w.state with viewFavorites := false } } rfl
    rw [← runQuery_autodisable B net1 w hf] at h
    refine ⟨by rw [h.1], by rw [h.1], fun _ => ⟨by rw [h.1], ?_⟩, fun hc => absurd hf hc.2⟩
    rw [h.1]; exact h.2
  · cases hv : w.state.viewFavorites with
    | false =>
      have h := runQuery_again B net1 net2 w hv
      refine ⟨by rw [h.1], by rw [h.1], fun _ => ⟨by rw [h.1], ?_⟩, fun hc => by simp at hc⟩
      rw [h.1]; exact h.2
    | true =>
      have h := runQuery_again_view B net1 net2 w hv hf
      refine ⟨h.1, h.2.2, fun hc => ?_, fun _ => h.2.1⟩
      rcases hc with hc | hc
      · simp at hc
      · exact absurd hc hf

/-- Witness of C4: from a fresh page the second call is answered from the cache; from the
favorites view it queries again. -/
theorem C4_cache_witness :
    ((runQuery refBuiltins exampleFetch (runQuery refBuiltins exampleFetch freshWorld)).apiGetCount
        = (runQuery refBuiltins exampleFetch freshWorld).apiGetCount ∧
      mapGet (runQuery refBuiltins exampleFetch freshWorld).state.cache
          ⟨freshWorld.state.search, freshWorld.state.domain, false⟩ =
        some (runQuery refBuiltins exampleFetch
          (runQuery refBuiltins exampleFetch freshWorld)).results) ∧
    (runQuery refBuiltins exampleFetch
      (runQuery refBuiltins exampleFetch favoritesViewWorld)).apiGetCount =
        (runQuery refBuiltins exampleFetch favoritesViewWorld).apiGetCount + 1 :=
  ⟨(C4_cache refBuiltins exampleFetch exampleFetch freshWorld).2.2.1 (Or.inl rfl),
   (C4_cache refBuiltins exampleFetch exampleFetch favoritesViewWorld).2.2.2
     ⟨rfl, by decide⟩⟩

/-- C6: after every `runQuery`, an empty favorites set implies that `viewFavorites` is
off; and on a page where `viewFavorites` is on and the favorites set is empty,
`runQuery` does exactly what it does on the same page with `viewFavorites` off. -/
theorem C6_auto_disable [DecidableEq Id] (B : Builtins Id) (net : FetchResult Id)
    (w : World Id) :
    ((runQuery B net w).state.favorites = [] → (runQuery B net w).state.viewFavorites = false) ∧
    (w.state.viewFavorites = true → w.state.favorites = [] →
      runQuery B net w =
        runQuery B net { w with state := { w.state with viewFavorites := false } }) := by
  refine ⟨?_, fun _ hf => runQuery_autodisable B net w hf⟩
  have h := runQuery_frame B net w
  intro he
  rw [h.1] at he
  rw [h.2.2, he]
  simp

/-- Witness of C6: in the favorites view with term 2 as the only favorite, toggling term 2
off empties the favorites; the `runQuery` of `toggleFavorite` then turns the view off and
shows the list a page without the favorites view shows. -/
theorem C6_auto_disable_witness :
    (toggleFavorite refBuiltins exampleFetch 2 favoritesViewWorld).state.favorites = [] ∧
    (toggleFavorite refBuiltins exampleFetch 2 favoritesViewWorld).state.viewFavorites = false ∧
    (toggleFavorite refBuiltins exampleFetch 2 favoritesViewWorld).results.map (fun t => t.id)
      = [2] ∧
    runQuery refBuiltins exampleFetch
        { favoritesViewWorld with state := { favoritesViewWorld.state with favorites := [] } } =
      runQuery refBuiltins exampleFetch
        { favoritesViewWorld with
          state := { favoritesViewWorld.state with favorites := [], viewFavorites := false } } :=
  ⟨by decide,
   (C6_auto_disable refBuiltins exampleFetch
      { favoritesViewWorld with
        state := { favoritesViewWorld.state with favorites := [], cache := [] }
        localStorage := mapSet favoritesViewWorld.localStorage (js "favorites")
          (refBuiltins.stringify []) }).1 (by decide),
   by decide,
   (C6_auto_disable refBuiltins exampleFetch
      { favoritesViewWorld with
        state := { favoritesViewWorld.state with favorites := [] } }).2 rfl rfl⟩

/-- C5: starting from a favorites set that does not contain `id`, after `n` calls of
`toggleFavorite(id)` the identifier `id` is a favorite exactly when `n` is odd, the
membership of every other identifier is what it was, and after every call the value stored
under the key `favorites` is `JSON.stringify` of the array of the favorites in memory. -/
theorem C5_toggle_parity [DecidableEq Id] (B : Builtins Id) (nets : Nat → FetchResult Id)
    (id : Id) (w : World Id) (hid : id ∉ w.state.favorites) (n : Nat) :
    (id ∈ (toggleTimes B nets id n w).state.favorites ↔ n % 2 = 1) ∧
    (∀ j, j ≠ id →
      (j ∈ (toggleTimes B nets id n w).state.favorites ↔ j ∈ w.state.favorites)) ∧
    (0 < n →
      mapGet (toggleTimes B nets id n w).localStorage (js "favorites") =
        some (B.stringify (toggleTimes B nets id n w).state.favorites)) := by
  induction n with
  | zero => simp [toggleTimes, hid]
  | succ n ih =>
    simp only [toggleTimes]
    refine ⟨?_, ?_, fun _ => (toggleFavorite_spec B (nets n) id _).2⟩
    · rw [toggleFavorite_mem, if_pos rfl, ih.1]
      omega
    · intro j hj
      rw [toggleFavorite_mem, if_neg hj]
      exact ih.2.1 j hj

/-- Witness of C5: three calls of `toggleFavorite(2)` on a fresh page leave `2` favorited
and `[2]` stored, from which the favorites are read back at the next start. -/
theorem C5_toggle_parity_witness :
    mapGet (toggleTimes refBuiltins (fun _ => exampleFetch) 2 3 freshWorld).localStorage
      (js "favorites") = some (js "[2]") ∧
    initFavorites refBuiltins
      (toggleTimes refBuiltins (fun _ => exampleFetch) 2 3 freshWorld).localStorage = .ok [2] ∧
    ((2 ∈ (toggleTimes refBuiltins (fun _ => exampleFetch) 2 3 freshWorld).state.favorites ↔
        3 % 2 = 1) ∧
      (∀ j, j ≠ 2 →
        (j ∈ (toggleTimes refBuiltins (fun _ => exampleFetch) 2 3 freshWorld).state.favorites ↔
          j ∈ freshWorld.state.favorites)) ∧
      (0 < 3 →
        mapGet (toggleTimes refBuiltins (fun _ => exampleFetch) 2 3 freshWorld).localStorage
            (js "favorites") =
          some (refBuiltins.stringify
            (toggleTimes refBuiltins (fun _ => exampleFetch) 2 3 freshWorld).state.favorites))) :=
  ⟨by decide, by decide,
   C5_toggle_parity refBuiltins (fun _ => exampleFetch) 2 freshWorld (by decide) 3⟩

/-- C8, as stated, fails: `apiGet` trims the selected domain.  With the domain `"Tech "`
selected and a dataset whose only term has the domain `"Tech "`, `onRandom` shows no term
although a term of the dataset has the selected domain. -/
theorem C8_untrimmed_domain_counterexample :
    (onRandom refBuiltins (.response true 200 (some paddedDocument)) 0 paddedWorld).spotlight
      = none ∧
    ∃ t ∈ paddedDocument.items.getD [], satisfiesDomain paddedWorld.state.domain t :=
  ⟨by decide, _, List.mem_singleton.mpr rfl, Or.inr rfl⟩

/-- C8, amended: for every dataset that loads, every page and every draw `rnd` of
`Math.random()`, a double with `0 ≤ rnd < 1`, `onRandom` shows no term if and only if no
term of the dataset satisfies the constraint of the trimmed selected domain; otherwise it
shows a term of the dataset that satisfies that constraint, the one at the index
`Math.floor(rnd * n)` of the filtered list of length `n`, the product being rounded to a
double, and that index is within the list; the outcome depends neither on `search` nor on
`state.cache`, which `onRandom` leaves as it was. -/
theorem C8_random_term (B : Builtins Id) (net : FetchResult Id) (rnd : Nat) (w : World Id)
    (data : Document Id) (hlow : B.toLowerCase [] = []) (hdouble : isDouble rnd)
    (h1 : rnd < 2 ^ 1074) (hload : loaded net w = .ok data) :
    ((onRandom B net rnd w).spotlight = none ↔
      ∀ t ∈ data.items.getD [], ¬ satisfiesDomain (trim w.state.domain) t) ∧
    (∀ t, (onRandom B net rnd w).spotlight = some t →
      t ∈ data.items.getD [] ∧ satisfiesDomain (trim w.state.domain) t) ∧
    (termList B data [] w.state.domain ≠ [] →
      randomIndex rnd (termList B data [] w.state.domain).length <
        (termList B data [] w.state.domain).length ∧
      (onRandom B net rnd w).spotlight =
        (termList B data [] w.state.domain).get?
          (randomIndex rnd (termList B data [] w.state.domain).length)) ∧
    (∀ search cache,
      (onRandom B net rnd
        { w with state := { w.state with search := search, cache := cache } }).spotlight =
      (onRandom B net rnd w).spotlight) ∧
    (onRandom B net rnd w).state.cache = w.state.cache := by
  have hspot := (onRandom_eq B net rnd w data hload).1
  have hidx : termList B data [] w.state.domain ≠ [] →
      randomIndex rnd (termList B data [] w.state.domain).length <
        (termList B data [] w.state.domain).length :=
    fun hne => randomIndex_lt rnd _ hdouble h1 (List.length_pos.mpr hne)
  rw [randomTerm_eq B rnd data w.state.domain hlow] at hspot
  refine ⟨?_, ?_, ?_, ?_, (onRandom_eq B net rnd w data hload).2⟩
  · rw [hspot]
    constructor
    · intro h t ht hsat
      have hmem := (mem_termList_nil B data w.state.domain hlow t).mpr ⟨ht, hsat⟩
      have hne : termList B data [] w.state.domain ≠ [] := List.ne_nil_of_mem hmem
      rw [if_neg (by simpa using hne)] at h
      rw [List.get?_eq_none] at h
      exact absurd (hidx hne) (by omega)
    · intro h
      rw [if_pos]
      rw [List.length_eq_zero, List.eq_nil_iff_forall_not_mem]
      intro t ht
      have := (mem_termList_nil B data w.state.domain hlow t).mp ht
      exact h t this.1 this.2
  · intro t ht
    rw [hspot] at ht
    split at ht
    · exact absurd ht (by simp)
    · exact (mem_termList_nil B data w.state.domain hlow t).mp (List.get?_mem ht)
  · intro hne
    refine ⟨hidx hne, ?_⟩
    rw [hspot, if_neg (by simpa using hne)]
  · intro search cache
    have hload2 : loaded net { w with state := { w.state with search := search, cache := cache } }
        = .ok data := by
      rw [loaded_eq] at hload ⊢
      exact hload
    rw [(onRandom_eq B net rnd _ data hload2).1, (onRandom_eq B net rnd w data hload).1]

set_option exponentiation.threshold 4096 in
set_option maxRecDepth 100000 in
/-- Witness of C8: the draw `0.6`.  On the three items of the end-to-end scenario, no domain
selected, the product `1.8` gives index 1 and the page shows item 2.  On a list of five rows
the product rounds to the double `3`, so the index is 3, where the exact product
`2.9999999999999998...` would give 2. -/
theorem C8_random_term_witness :
    isDouble pointSix ∧ pointSix < 2 ^ 1074 ∧
    randomIndex pointSix 5 = 3 ∧
    (onRandom refBuiltins exampleFetch pointSix freshWorld).spotlight = some cpuTerm ∧
    (((onRandom refBuiltins exampleFetch pointSix freshWorld).spotlight = none ↔
      ∀ t ∈ exampleDocument.items.getD [], ¬ satisfiesDomain (trim freshWorld.state.domain) t) ∧
    (∀ t, (onRandom refBuiltins exampleFetch pointSix freshWorld).spotlight = some t →
      t ∈ exampleDocument.items.getD [] ∧ satisfiesDomain (trim freshWorld.state.domain) t) ∧
    (termList refBuiltins exampleDocument [] freshWorld.state.domain ≠ [] →
      randomIndex pointSix
          (termList refBuiltins exampleDocument [] freshWorld.state.domain).length <
        (termList refBuiltins exampleDocument [] freshWorld.state.domain).length ∧
      (onRandom refBuiltins exampleFetch pointSix freshWorld).spotlight =
        (termList refBuiltins exampleDocument [] freshWorld.state.domain).get?
          (randomIndex pointSix
            (termList refBuiltins exampleDocument [] freshWorld.state.domain).length)) ∧
    (∀ search cache,
      (onRandom refBuiltins exampleFetch pointSix
        { freshWorld with
          state := { freshWorld.state with search := search, cache := cache } }).spotlight =
      (onRandom refBuiltins exampleFetch pointSix freshWorld).spotlight) ∧
    (onRandom refBuiltins exampleFetch pointSix freshWorld).state.cache =
      freshWorld.state.cache) :=
  ⟨by decide, by decide, by decide, by decide,
   C8_random_term refBuiltins exampleFetch pointSix freshWorld exampleDocument (by decide)
     (by decide) (by decide) (by decide)⟩

/-- C9, as stated, fails: `dataPromise` keeps the promise of the first call also when it
rejects.  After a load that failed on status 500, the next `loadData` issues no fetch and
fails with the same error, although a fetch would now succeed. -/
theorem C9_failure_cached_counterexample :
    (loadData (.response false 500 none) freshWorld).2 = .error (.badStatus 500) ∧
    (loadData exampleFetch (loadData (.response false 500 none) freshWorld).1).2 =
      .error (.badStatus 500) ∧
    (loadData (.response false 500 none) freshWorld).1.fetchCount = 1 ∧
    (loadData exampleFetch (loadData (.response false 500 none) freshWorld).1).1.fetchCount = 1 := by
  decide

/-- C9, amended: `loadData` memoizes the outcome of its first call, a failure as much as a
success.  While `dataPromise` is `null` a call issues one fetch and returns its outcome
(the dataset, or the error of a rejected fetch, of a response that is not `ok`, or of a
malformed document); the call after any call issues no fetch and returns the same outcome. -/
theorem C9_load_memoized (net1 net2 : FetchResult Id) (w : World Id) :
    (w.dataPromise = none →
      (loadData net1 w).2 = fetchDocument net1 ∧
      (loadData net1 w).1.fetchCount = w.fetchCount + 1) ∧
    (loadData net2 (loadData net1 w).1).2 = (loadData net1 w).2 ∧
    (loadData net2 (loadData net1 w).1).1.fetchCount = (loadData net1 w).1.fetchCount ∧
    (loadData net2 (loadData net1 w).1).1.dataPromise = some ((loadData net1 w).2) := by
  rw [loadData_memo]
  refine ⟨fun h => by simp [loadData, h], rfl, rfl, ?_⟩
  exact (loadData_fst net1 w).2.2.2

/-- Witness of C9: a first load that succeeds is answered again without a fetch. -/
theorem C9_load_memoized_witness :
    ((loadData exampleFetch freshWorld).2 = fetchDocument exampleFetch ∧
      (loadData exampleFetch freshWorld).1.fetchCount = freshWorld.fetchCount + 1) ∧
    (loadData (.rejected) (loadData exampleFetch freshWorld).1).2 = .ok exampleDocument :=
  ⟨(C9_load_memoized exampleFetch .rejected freshWorld).1 rfl, by decide⟩

/-- C10, as stated, fails: the initial load of the favorites is not guarded.  A stored
value that is not JSON makes `JSON.parse` throw, and a stored JSON number makes
`new Set(_)` throw; in both cases the script stops with an error. -/
theorem C10_malformed_storage_counterexample :
    initFavorites refBuiltins [(js "favorites", js "oops")] = .error .parseError ∧
    initFavorites refBuiltins [(js "favorites", js "7")] = .error .typeError ∧
    (initWorld refBuiltins [(js "favorites", js "oops")]).isOk = false := by
  decide

/-- C10, amended: when the key `favorites` is missing or holds the empty string the
initial favorites set is empty; when it holds a well-formed JSON array the set is exactly
the set of the elements of the array; when it holds a text that `JSON.parse` rejects, or
the JSON of a number, a boolean or an object, the initial load fails with that error. -/
theorem C10_init_favorites [DecidableEq Id] (B : Builtins Id)
    (hempty : B.parse (js "[]") = .ok (.iterable [])) :
    (∀ ls, mapGet ls (js "favorites") = none ∨ mapGet ls (js "favorites") = some [] →
      initFavorites B ls = .ok []) ∧
    (∀ ls text elems, mapGet ls (js "favorites") = some text → text ≠ [] →
      B.parse text = .ok (.iterable elems) →
      ∃ favorites, initFavorites B ls = .ok favorites ∧ favorites.Nodup ∧
        ∀ x, x ∈ favorites ↔ x ∈ elems) ∧
    (∀ ls text e, mapGet ls (js "favorites") = some text → text ≠ [] →
      B.parse text = .error e → initFavorites B ls = .error e) ∧
    (∀ ls text, mapGet ls (js "favorites") = some text → text ≠ [] →
      B.parse text = .ok .notIterable → initFavorites B ls = .error .typeError) := by
  refine ⟨?_, ?_, ?_, ?_⟩
  · rintro ls (h | h) <;> simp [initFavorites, h, orEmpty, hempty, setFrom]
  · intro ls text elems h hne hp
    exact ⟨setFrom elems, by simp [initFavorites, h, orEmpty, hne, hp], nodup_setFrom elems,
      mem_setFrom elems⟩
  · intro ls text e h hne hp
    simp [initFavorites, h, orEmpty, hne, hp]
  · intro ls text h hne hp
    simp [initFavorites, h, orEmpty, hne, hp]

/-- Witness of C10: nothing stored gives the empty set, and the stored array `[3,1,3]`
gives the set of `3` and `1`. -/
theorem C10_init_favorites_witness :
    initFavorites refBuiltins [] = .ok [] ∧
    initFavorites refBuiltins [(js "favorites", js "[3,1,3]")] = .ok [3, 1] ∧
    ∃ favorites, initFavorites refBuiltins [(js "favorites", js "[3,1,3]")] = .ok favorites ∧
      favorites.Nodup ∧ ∀ x, x ∈ favorites ↔ x ∈ [3, 1, 3] :=
  ⟨(C10_init_favorites refBuiltins (by decide)).1 [] (Or.inl rfl), by decide,
   (C10_init_favorites refBuiltins (by decide)).2.1 [(js "favorites", js "[3,1,3]")]
     (js "[3,1,3]") [3, 1, 3] (by decide) (by decide) (by decide)⟩

end Glossary
